import Mathlib

/-!
Shallow embedding of the buzzer-app server core (src/server.js).

Rooms are in-memory records; JavaScript objects keyed by socket id are
modelled as association lists over `String` keys (JS object insertion
order is preserved by the list order).  Timestamps (`Date.now()`) are
`Int` milliseconds passed explicitly.  JavaScript numbers submitted to
the configuration endpoint are modelled by `JSNum` (a rational, or one
of the non-finite values).  Socket emissions are modelled by the
`Effect` list a handler returns.
-/

namespace Buzzer

/-- Player record: `{ name, score, dqNextRound, dqThisRound }` (server.js line 37). -/
structure Player where
  name : String
  score : Int
  dqNextRound : Bool
  dqThisRound : Bool
deriving DecidableEq

/-- Room configuration: `{ pointsPerPart: number }` (server.js line 40). -/
structure Config where
  pointsPerPart : Int
deriving DecidableEq

/-- Room state (server.js lines 31-43); `hostSockets` is omitted because no
claim refers to it.  `players` and `lastBuzzAt` are JS objects keyed by
socket id, modelled as association lists in insertion order. -/
structure Room where
  code : String
  roundActive : Bool
  roundNumber : Nat
  queue : List String
  players : List (String × Player)
  lastBuzzAt : List (String × Int)
  config : Config
deriving DecidableEq

/-- Lookup in a JS-object association list (`obj[k]`). -/
def lookupA {α : Type} : List (String × α) → String → Option α
  | [], _ => none
  | e :: m, k => if e.1 == k then some e.2 else lookupA m k

/-- Assignment `obj[k] = v` on a JS-object association list: replaces the
first binding of `k` in place, or appends a new binding at the end
(JS objects keep insertion order and have unique keys). -/
def setA {α : Type} : List (String × α) → String → α → List (String × α)
  | [], k, v => [(k, v)]
  | e :: m, k, v => if e.1 == k then (k, v) :: m else e :: setA m k v

/-- Deletion `delete obj[k]` on a JS-object association list. -/
def removeA {α : Type} (m : List (String × α)) (k : String) : List (String × α) :=
  m.filter (fun e => e.1 != k)

/-- Constant `SERVER_COOLDOWN_MS = 300` (server.js line 47). -/
def SERVER_COOLDOWN_MS : Int := 300

/-- Constant `DEFAULT_POINTS_PER_PART = 5` (server.js line 48). -/
def DEFAULT_POINTS_PER_PART : Int := 5

/-- Constant `MAX_POINTS = 100` (server.js line 49). -/
def MAX_POINTS : ℚ := 100

/-- Function `sanitizeName` (server.js lines 78-81): trim, cap at 32
characters, default `"Player"` when empty. -/
def sanitizeName (name : String) : String :=
  let s := name.trim
  let t := (s.toList.take 32).asString
  if t == "" then "Player" else t

/-- Fresh room created by `ensureRoom` (server.js lines 60-76). -/
def initRoom (code : String) : Room :=
  { code := code
    roundActive := false
    roundNumber := 0
    queue := []
    players := []
    lastBuzzAt := []
    config := { pointsPerPart := DEFAULT_POINTS_PER_PART } }

/-- Per-player effect of the round-start loop (server.js lines 134-137):
`p.dqThisRound = !!p.dqNextRound; p.dqNextRound = false`. -/
def updDQ (p : Player) : Player :=
  { p with dqThisRound := p.dqNextRound, dqNextRound := false }

/-- Per-player effect of the round-end loop (server.js lines 149-151):
`p.dqThisRound = false`. -/
def clearDQ (p : Player) : Player :=
  { p with dqThisRound := false }

/-- Function `startRound` (server.js lines 129-144), state part: activates
the round, increments `roundNumber`, clears `queue` and `lastBuzzAt`, and
runs `updDQ` on every player. -/
def startRound (room : Room) : Room :=
  { room with
    roundActive := true
    roundNumber := room.roundNumber + 1
    queue := []
    players := room.players.map (fun e => (e.1, updDQ e.2))
    lastBuzzAt := [] }

/-- Function `endRound` (server.js lines 146-157), state part: deactivates
the round, clears `queue`, and runs `clearDQ` on every player. -/
def endRound (room : Room) : Room :=
  { room with
    roundActive := false
    queue := []
    players := room.players.map (fun e => (e.1, clearDQ e.2)) }

/-- Handler `host:actionPartCorrect` (server.js lines 206-216), state part:
with a non-empty queue, adds `pointsPerPart` to the head player's score;
the head stays in the queue.  No-op on an empty queue. -/
def actionPartCorrect (room : Room) : Room :=
  match room.queue with
  | [] => room
  | firstId :: _ =>
    match lookupA room.players firstId with
    | none => room
    | some p =>
      let p2 := { p with score := p.score + room.config.pointsPerPart }
      { room with players := setA room.players firstId p2 }

/-- Handler `host:actionFullCorrect` (server.js lines 218-228), state part:
with a non-empty queue, pops the head and adds `pointsPerPart * 2` to that
player's score.  No-op on an empty queue. -/
def actionFullCorrect (room : Room) : Room :=
  match room.queue with
  | [] => room
  | firstId :: rest =>
    match lookupA room.players firstId with
    | none => { room with queue := rest }
    | some p =>
      let p2 := { p with score := p.score + room.config.pointsPerPart * 2 }
      { room with
        queue := rest
        players := setA room.players firstId p2 }

/-- Handler `host:actionNext` (server.js lines 230-235), state part: pops
the head of a non-empty queue with no score change. -/
def actionNext (room : Room) : Room :=
  match room.queue with
  | [] => room
  | _ :: rest => { room with queue := rest }

/-- Handler `host:actionDQNextRound` (server.js lines 237-244), state part:
pops the head of a non-empty queue and sets that player's `dqNextRound`. -/
def actionDQNextRound (room : Room) : Room :=
  match room.queue with
  | [] => room
  | firstId :: rest =>
    match lookupA room.players firstId with
    | none => { room with queue := rest }
    | some p =>
      let p2 := { p with dqNextRound := true }
      { room with
        queue := rest
        players := setA room.players firstId p2 }

/-- Outcome of a buzz attempt, one per exit path of the `player:buzz`
handler (server.js lines 286-311). -/
inductive BuzzOutcome where
  | unknownPlayer
  | roundInactive
  | disqualified
  | cooldown (msRemaining : Int)
  | alreadyQueued
  | accepted
deriving DecidableEq

/-- Handler `player:buzz` (server.js lines 286-311) for an existing room:
checks, in source order, membership, round activity, `dqThisRound`, the
300 ms cooldown (`last` defaulting to 0), and queue membership; on
acceptance appends to the queue tail and records `lastBuzzAt`. -/
def attemptBuzz (room : Room) (pid : String) (now : Int) : BuzzOutcome × Room :=
  match lookupA room.players pid with
  | none => (.unknownPlayer, room)
  | some p =>
    if !room.roundActive then (.roundInactive, room)
    else if p.dqThisRound then (.disqualified, room)
    else
      let last : Int := (lookupA room.lastBuzzAt pid).getD 0
      let delta : Int := now - last
      if delta < SERVER_COOLDOWN_MS then
        (.cooldown (SERVER_COOLDOWN_MS - delta), room)
      else if room.queue.contains pid then
        (.alreadyQueued, room)
      else
        (.accepted, { room with
            queue := room.queue ++ [pid]
            lastBuzzAt := setA room.lastBuzzAt pid now })

/-- Handler `player:joinRoom` (server.js lines 264-284) for an existing
room, state part: `players[id] = players[id] ?? fresh entry` followed by
`players[id].name = name`. -/
def playerJoinRoom (room : Room) (pid : String) (rawName : String) : Room :=
  let name := sanitizeName rawName
  let entry := (lookupA room.players pid).getD
      { name := name, score := 0, dqNextRound := false, dqThisRound := false }
  let entry2 := { entry with name := name }
  { room with players := setA room.players pid entry2 }

/-- Handler `disconnect` (server.js lines 314-331), per-room state part:
`removeFromQueue` (first occurrence) and `delete room.players[id]`. -/
def disconnectCleanup (room : Room) (pid : String) : Room :=
  { room with
    queue := room.queue.erase pid
    players := removeA room.players pid }

/-- JavaScript number as submitted to `config:update`: a finite rational
or one of the non-finite doubles. -/
inductive JSNum where
  | nan
  | posInf
  | negInf
  | num (q : ℚ)
deriving DecidableEq

/-- Model of `Number.isFinite` on a `JSNum`. -/
def JSNum.isFinite : JSNum → Bool
  | .num _ => true
  | _ => false

/-- Finite value of a `JSNum` (only used after an `isFinite` guard). -/
def jsVal : JSNum → ℚ
  | .num q => q
  | _ => 0

/-- Model of `Math.round` for finite doubles: round half toward positive
infinity, i.e. `Math.round(x) = floor(x + 1/2)`. -/
def jsRound (q : ℚ) : Int := ⌊q + (1 : ℚ) / 2⌋

/-- Validation test of `config:update` (server.js line 250):
`Number.isFinite(val) && val >= 0 && val <= MAX_POINTS`. -/
def configOK : JSNum → Bool
  | .num q => decide ((0 : ℚ) ≤ q) && decide (q ≤ MAX_POINTS)
  | _ => false

/-- Socket emission produced by a handler; message strings are not
modelled, only which emission happens and its numeric payload. -/
inductive Effect where
  | roundStartEvt (roundNumber : Nat)
  | roundEndEvt (roundNumber : Nat)
  | stateSync
  | configSync (pointsPerPart : Int)
  | toastInfo
  | toastWarning
  | toastError
  | cooldownNotice (msRemaining : Int)
deriving DecidableEq

/-- Handler `config:update` (server.js lines 246-261) for an existing
room: on a finite value in `[0, MAX_POINTS]` it stores `Math.round(val)`
and emits `config:sync`, an info toast and a state sync; otherwise it
emits a warning toast to the caller and leaves the room unchanged. -/
def configUpdate (room : Room) (v : JSNum) : Room × List Effect :=
  if configOK v then
    let pts := jsRound (jsVal v)
    ({ room with config := { pointsPerPart := pts } },
     [.configSync pts, .toastInfo, .stateSync])
  else
    (room, [.toastWarning])

/-- Registry of rooms (`rooms: Map<roomCode, room>`), as an association
list. -/
abbrev Rooms := List (String × Room)

/-- Room-code normalisation used by the host handlers:
`String(roomCode ?? "").toUpperCase()`. -/
def normCode (s : String) : String := s.toUpper

/-- Handler `host:startRound` (server.js lines 194-198): silently returns
when the room does not exist; otherwise runs `startRound`, which emits
`round:start` and a state sync. -/
def hostStartRound (rs : Rooms) (roomCode : String) : Rooms × List Effect :=
  match lookupA rs (normCode roomCode) with
  | none => (rs, [])
  | some room =>
    let r := startRound room
    (setA rs (normCode roomCode) r, [.roundStartEvt r.roundNumber, .stateSync])

/-- Handler `host:endRound` (server.js lines 200-204): silently returns
when the room does not exist; otherwise runs `endRound`, which emits
`round:end` and a state sync. -/
def hostEndRound (rs : Rooms) (roomCode : String) : Rooms × List Effect :=
  match lookupA rs (normCode roomCode) with
  | none => (rs, [])
  | some room =>
    let r := endRound room
    (setA rs (normCode roomCode) r, [.roundEndEvt r.roundNumber, .stateSync])

/-- Handler `host:actionPartCorrect` (server.js lines 206-216): silently
returns when the room does not exist or the queue is empty. -/
def hostActionPartCorrect (rs : Rooms) (roomCode : String) : Rooms × List Effect :=
  match lookupA rs (normCode roomCode) with
  | none => (rs, [])
  | some room =>
    if room.queue.isEmpty then (rs, [])
    else (setA rs (normCode roomCode) (actionPartCorrect room), [.stateSync])

/-- Handler `host:actionFullCorrect` (server.js lines 218-228): silently
returns when the room does not exist or the queue is empty. -/
def hostActionFullCorrect (rs : Rooms) (roomCode : String) : Rooms × List Effect :=
  match lookupA rs (normCode roomCode) with
  | none => (rs, [])
  | some room =>
    if room.queue.isEmpty then (rs, [])
    else (setA rs (normCode roomCode) (actionFullCorrect room), [.stateSync])

/-- Handler `host:actionNext` (server.js lines 230-235): silently returns
when the room does not exist or the queue is empty. -/
def hostActionNext (rs : Rooms) (roomCode : String) : Rooms × List Effect :=
  match lookupA rs (normCode roomCode) with
  | none => (rs, [])
  | some room =>
    if room.queue.isEmpty then (rs, [])
    else (setA rs (normCode roomCode) (actionNext room), [.stateSync])

/-- Handler `host:actionDQNextRound` (server.js lines 237-244): silently
returns when the room does not exist or the queue is empty. -/
def hostActionDQNextRound (rs : Rooms) (roomCode : String) : Rooms × List Effect :=
  match lookupA rs (normCode roomCode) with
  | none => (rs, [])
  | some room =>
    if room.queue.isEmpty then (rs, [])
    else (setA rs (normCode roomCode) (actionDQNextRound room), [.stateSync])

/-- Handler `config:update` at registry level (server.js lines 246-261):
silently returns when the room does not exist. -/
def hostConfigUpdate (rs : Rooms) (roomCode : String) (v : JSNum) :
    Rooms × List Effect :=
  match lookupA rs (normCode roomCode) with
  | none => (rs, [])
  | some room =>
    let rc := configUpdate room v
    (setA rs (normCode roomCode) rc.1, rc.2)

/-- Entry of the broadcast leaderboard: `{ id, name, score }`
(server.js line 91). -/
structure LBEntry where
  id : String
  name : String
  score : Int
deriving DecidableEq

/-- Computable lexicographic order on char lists, the model of the
`localeCompare`-based name tie-break (codepoint collation). -/
def lexLE : List Char → List Char → Bool
  | [], _ => true
  | _ :: _, [] => false
  | a :: as, b :: bs =>
    if a < b then true
    else if b < a then false
    else lexLE as bs

/-- Name comparison `a.name.localeCompare(b.name) <= 0`, modelled on
codepoints. -/
def nameLE (a b : String) : Bool := lexLE a.data b.data

/-- Comparator of `toLeaderboard` (server.js line 92) as a non-strict
order: `cmp(a, b) <= 0` for `(b.score - a.score) || localeCompare`. -/
def lbRel (a b : LBEntry) : Prop :=
  b.score < a.score ∨ (a.score = b.score ∧ nameLE a.name b.name = true)

instance : DecidableRel lbRel := fun a b => by
  unfold lbRel
  infer_instance

/-- Function `toLeaderboard` (server.js lines 89-93): map the player
entries to `{ id, name, score }` and stable-sort by score descending then
name ascending.  JS `Array.prototype.sort` is a stable sort, modelled by
insertion sort. -/
def toLeaderboard (room : Room) : List LBEntry :=
  List.insertionSort lbRel
    (room.players.map (fun e => LBEntry.mk e.1 e.2.name e.2.score))

/-- Single mutation step of one room, one constructor per server handler
that touches room state. -/
inductive RoomStep : Room → Room → Prop where
  | stepStart (r : Room) : RoomStep r (startRound r)
  | stepEnd (r : Room) : RoomStep r (endRound r)
  | stepPartial (r : Room) : RoomStep r (actionPartCorrect r)
  | stepFull (r : Room) : RoomStep r (actionFullCorrect r)
  | stepNext (r : Room) : RoomStep r (actionNext r)
  | stepDQ (r : Room) : RoomStep r (actionDQNextRound r)
  | stepConfig (r : Room) (v : JSNum) : RoomStep r (configUpdate r v).1
  | stepJoin (r : Room) (pid nm : String) : RoomStep r (playerJoinRoom r pid nm)
  | stepBuzz (r : Room) (pid : String) (now : Int) :
      RoomStep r (attemptBuzz r pid now).2
  | stepDisconnect (r : Room) (pid : String) :
      RoomStep r (disconnectCleanup r pid)

/-- Room states reachable from a freshly created room through the server
handlers. -/
inductive Reachable : Room → Prop where
  | init (code : String) : Reachable (initRoom code)
  | step {r r' : Room} : Reachable r → RoomStep r r' → Reachable r'

/-- Example room with an active round, one queued player who already
buzzed at t = 1000 ms, used in concrete checks. -/
def exBuzzQueued : Room :=
  { code := "R"
    roundActive := true
    roundNumber := 1
    queue := ["P1"]
    players := [("P1", { name := "Alice", score := 0, dqNextRound := false, dqThisRound := false })]
    lastBuzzAt := [("P1", 1000)]
    config := { pointsPerPart := 5 } }

/-- Example room like `exBuzzQueued` but with the player no longer in the
queue. -/
def exBuzzFresh : Room :=
  { code := "R"
    roundActive := true
    roundNumber := 1
    queue := []
    players := [("P1", { name := "Alice", score := 0, dqNextRound := false, dqThisRound := false })]
    lastBuzzAt := [("P1", 1000)]
    config := { pointsPerPart := 5 } }

/-- Example room with one player carrying both DQ flags. -/
def exRound : Room :=
  { code := "R"
    roundActive := true
    roundNumber := 2
    queue := ["P1"]
    players := [("P1", { name := "A", score := 2, dqNextRound := true, dqThisRound := true })]
    lastBuzzAt := [("P1", 50)]
    config := { pointsPerPart := 5 } }

/-- Example room with `pointsPerPart = 5` and queue `[P1, P2]`. -/
def exAward : Room :=
  { code := "R"
    roundActive := true
    roundNumber := 1
    queue := ["P1", "P2"]
    players := [("P1", { name := "Alice", score := 3, dqNextRound := false, dqThisRound := false }),
                ("P2", { name := "Bob", score := 0, dqNextRound := false, dqThisRound := false })]
    lastBuzzAt := []
    config := { pointsPerPart := 5 } }

/-- Example room whose players have scores B:5, A:5, C:10. -/
def exLeaderboard : Room :=
  { code := "R"
    roundActive := false
    roundNumber := 0
    queue := []
    players := [("s1", { name := "B", score := 5, dqNextRound := false, dqThisRound := false }),
                ("s2", { name := "A", score := 5, dqNextRound := false, dqThisRound := false }),
                ("s3", { name := "C", score := 10, dqNextRound := false, dqThisRound := false })]
    lastBuzzAt := []
    config := { pointsPerPart := 5 } }


/-- Lookup after an in-place assignment finds the assigned value. -/
theorem lookupA_setA_self {α : Type} (m : List (String × α)) (k : String) (v : α) :
    lookupA (setA m k v) k = some v := by
  induction m with
  | nil => simp [setA, lookupA]
  | cons e m ih =>
    by_cases h : e.1 == k
    · simp [setA, h, lookupA]
    · simp [setA, h, lookupA, ih]

/-- Lookup commutes with mapping a function over the values. -/
theorem lookupA_map {α β : Type} (f : α → β) (m : List (String × α)) (k : String) :
    lookupA (m.map (fun e => (e.1, f e.2))) k = (lookupA m k).map f := by
  induction m with
  | nil => rfl
  | cons e m ih => by_cases h : e.1 == k <;> simp [lookupA, h, ih]

/-- Head characterisation of the lexicographic char-list order. -/
theorem lexLE_cons (a b : Char) (as bs : List Char) :
    lexLE (a :: as) (b :: bs) = true ↔ a < b ∨ (a = b ∧ lexLE as bs = true) := by
  rcases lt_trichotomy a b with h | h | h
  · simp [lexLE, h]
  · subst h
    simp [lexLE, lt_irrefl]
  · have hne : a ≠ b := ne_of_gt h
    have hnlt : ¬a < b := not_lt.mpr h.le
    simp [lexLE, hnlt, h, hne]

/-- Totality of the lexicographic char-list order. -/
theorem lexLE_total (xs ys : List Char) :
    lexLE xs ys = true ∨ lexLE ys xs = true := by
  induction xs generalizing ys with
  | nil => left; rfl
  | cons a as ih =>
    cases ys with
    | nil => right; rfl
    | cons b bs =>
      rcases lt_trichotomy a b with h | h | h
      · left
        rw [lexLE_cons]
        exact Or.inl h
      · subst h
        rcases ih bs with h2 | h2
        · left
          rw [lexLE_cons]
          exact Or.inr ⟨rfl, h2⟩
        · right
          rw [lexLE_cons]
          exact Or.inr ⟨rfl, h2⟩
      · right
        rw [lexLE_cons]
        exact Or.inl h

/-- Transitivity of the lexicographic char-list order. -/
theorem lexLE_trans (xs ys zs : List Char) (h1 : lexLE xs ys = true)
    (h2 : lexLE ys zs = true) : lexLE xs zs = true := by
  induction xs generalizing ys zs with
  | nil => rfl
  | cons a as ih =>
    cases ys with
    | nil => simp [lexLE] at h1
    | cons b bs =>
      cases zs with
      | nil => simp [lexLE] at h2
      | cons c cs =>
        rw [lexLE_cons] at h1 h2 ⊢
        rcases h1 with h1 | ⟨rfl, h1⟩
        · rcases h2 with h2 | ⟨rfl, h2⟩
          · exact Or.inl (h1.trans h2)
          · exact Or.inl h1
        · rcases h2 with h2 | ⟨rfl, h2⟩
          · exact Or.inl h2
          · exact Or.inr ⟨rfl, ih bs cs h1 h2⟩

/-- Totality of the leaderboard comparator order. -/
theorem lbRel_total (a b : LBEntry) : lbRel a b ∨ lbRel b a := by
  rcases lt_trichotomy a.score b.score with h | h | h
  · exact Or.inr (Or.inl h)
  · rcases lexLE_total a.name.data b.name.data with h2 | h2
    · exact Or.inl (Or.inr ⟨h, h2⟩)
    · exact Or.inr (Or.inr ⟨h.symm, h2⟩)
  · exact Or.inl (Or.inl h)

/-- Transitivity of the leaderboard comparator order. -/
theorem lbRel_trans (a b c : LBEntry) (hab : lbRel a b) (hbc : lbRel b c) :
    lbRel a c := by
  rcases hab with hab | ⟨hab, hab2⟩
  · rcases hbc with hbc | ⟨hbc, _⟩
    · exact Or.inl (hbc.trans hab)
    · exact Or.inl (hbc ▸ hab)
  · rcases hbc with hbc | ⟨hbc, hbc2⟩
    · exact Or.inl (hab.symm ▸ hbc)
    · exact Or.inr ⟨hab.trans hbc, lexLE_trans _ _ _ hab2 hbc2⟩

/-- Partial award does not change the queue. -/
theorem actionPartCorrect_queue (r : Room) : (actionPartCorrect r).queue = r.queue := by
  unfold actionPartCorrect
  split
  · rfl
  · split <;> rfl

/-- Partial award does not change the round flag. -/
theorem actionPartCorrect_roundActive (r : Room) :
    (actionPartCorrect r).roundActive = r.roundActive := by
  unfold actionPartCorrect
  split
  · rfl
  · split <;> rfl

/-- Full award does not change the round flag. -/
theorem actionFullCorrect_roundActive (r : Room) :
    (actionFullCorrect r).roundActive = r.roundActive := by
  unfold actionFullCorrect
  split
  · rfl
  · split <;> rfl

/-- Full award on an empty queue is a no-op. -/
theorem actionFullCorrect_nil (r : Room) (h : r.queue = []) :
    actionFullCorrect r = r := by
  unfold actionFullCorrect
  rw [h]

/-- Skip does not change the round flag. -/
theorem actionNext_roundActive (r : Room) :
    (actionNext r).roundActive = r.roundActive := by
  unfold actionNext
  split <;> rfl

/-- Skip on an empty queue is a no-op. -/
theorem actionNext_nil (r : Room) (h : r.queue = []) : actionNext r = r := by
  unfold actionNext
  rw [h]

/-- Disqualify-next-round does not change the round flag. -/
theorem actionDQNextRound_roundActive (r : Room) :
    (actionDQNextRound r).roundActive = r.roundActive := by
  unfold actionDQNextRound
  split
  · rfl
  · split <;> rfl

/-- Disqualify-next-round on an empty queue is a no-op. -/
theorem actionDQNextRound_nil (r : Room) (h : r.queue = []) :
    actionDQNextRound r = r := by
  unfold actionDQNextRound
  rw [h]

/-- Configuration update does not change the queue. -/
theorem configUpdate_queue (r : Room) (v : JSNum) :
    (configUpdate r v).1.queue = r.queue := by
  unfold configUpdate
  split <;> rfl

/-- Configuration update does not change the round flag. -/
theorem configUpdate_roundActive (r : Room) (v : JSNum) :
    (configUpdate r v).1.roundActive = r.roundActive := by
  unfold configUpdate
  split <;> rfl

/-- Buzzing does not change the round flag. -/
theorem attemptBuzz_roundActive (r : Room) (pid : String) (now : Int) :
    (attemptBuzz r pid now).2.roundActive = r.roundActive := by
  unfold attemptBuzz
  dsimp only
  repeat' split <;> try rfl

/-- Buzzing into an inactive round leaves the room unchanged. -/
theorem attemptBuzz_inactive (r : Room) (pid : String) (now : Int)
    (h : r.roundActive = false) : (attemptBuzz r pid now).2 = r := by
  unfold attemptBuzz
  split
  · rfl
  · simp [h]

/-- Every room-mutating handler preserves the invariant that an idle room
has an empty queue. -/
theorem roomStep_preserves_idle (r r2 : Room) (hs : RoomStep r r2)
    (hinv : r.roundActive = false → r.queue = []) :
    r2.roundActive = false → r2.queue = [] := by
  cases hs with
  | stepStart =>
    intro h
    simp [startRound] at h
  | stepEnd =>
    intro _
    rfl
  | stepPartial =>
    intro h
    rw [actionPartCorrect_roundActive] at h
    rw [actionPartCorrect_queue]
    exact hinv h
  | stepFull =>
    intro h
    rw [actionFullCorrect_roundActive] at h
    have hq := hinv h
    rw [actionFullCorrect_nil r hq]
    exact hq
  | stepNext =>
    intro h
    rw [actionNext_roundActive] at h
    have hq := hinv h
    rw [actionNext_nil r hq]
    exact hq
  | stepDQ =>
    intro h
    rw [actionDQNextRound_roundActive] at h
    have hq := hinv h
    rw [actionDQNextRound_nil r hq]
    exact hq
  | stepConfig v =>
    intro h
    rw [configUpdate_roundActive] at h
    rw [configUpdate_queue]
    exact hinv h
  | stepJoin pid nm =>
    intro h
    exact hinv h
  | stepBuzz pid now =>
    intro h
    rw [attemptBuzz_roundActive] at h
    rw [attemptBuzz_inactive r pid now h]
    exact hinv h
  | stepDisconnect pid =>
    intro h
    have hq := hinv h
    show r.queue.erase pid = []
    rw [hq]
    rfl

/-- C1: starting a round increments `roundNumber` by exactly 1, sets
`roundActive`, clears the queue and the `lastBuzzAt` map, and for every
player copies `dqNextRound` into `dqThisRound` and then clears
`dqNextRound`. -/
theorem startRound_spec (room : Room) :
    (startRound room).roundNumber = room.roundNumber + 1 ∧
    (startRound room).roundActive = true ∧
    (startRound room).queue = [] ∧
    (startRound room).lastBuzzAt = [] ∧
    ∀ pid p, lookupA room.players pid = some p →
      lookupA (startRound room).players pid =
        some { p with dqThisRound := p.dqNextRound, dqNextRound := false } := by
  refine ⟨rfl, rfl, rfl, rfl, ?_⟩
  intro pid p hp
  have hm := lookupA_map updDQ room.players pid
  rw [hp] at hm
  exact hm

/-- Witness for C1 at a concrete room whose player has
`dqNextRound = true` and `dqThisRound = true`. -/
theorem startRound_spec_witness :
    lookupA exRound.players "P1" = some ⟨"A", 2, true, true⟩ ∧
    lookupA (startRound exRound).players "P1" = some ⟨"A", 2, false, true⟩ :=
  ⟨rfl, (startRound_spec exRound).2.2.2.2 "P1" ⟨"A", 2, true, true⟩ rfl⟩

/-- C5: ending a round deactivates it, clears the queue, clears every
player's `dqThisRound`, and leaves `dqNextRound`, scores and
`roundNumber` unchanged. -/
theorem endRound_spec (room : Room) :
    (endRound room).roundActive = false ∧
    (endRound room).queue = [] ∧
    (endRound room).roundNumber = room.roundNumber ∧
    ∀ pid p, lookupA room.players pid = some p →
      lookupA (endRound room).players pid = some { p with dqThisRound := false } := by
  refine ⟨rfl, rfl, rfl, ?_⟩
  intro pid p hp
  have hm := lookupA_map clearDQ room.players pid
  rw [hp] at hm
  exact hm

/-- Witness for C5 at a concrete room whose player has both DQ flags
set; `dqNextRound` and the score survive, `dqThisRound` is cleared. -/
theorem endRound_spec_witness :
    lookupA exRound.players "P1" = some ⟨"A", 2, true, true⟩ ∧
    lookupA (endRound exRound).players "P1" = some ⟨"A", 2, true, false⟩ :=
  ⟨rfl, (endRound_spec exRound).2.2.2 "P1" ⟨"A", 2, true, true⟩ rfl⟩

/-- C3: with `pointsPerPart = 5` and queue `[P1, P2]`, a partial award
adds 5 to the head player and keeps the queue, a full award on the same
state adds 10 and pops the head, and both awards are no-ops on an empty
queue. -/
theorem award_spec (room : Room) (p1 p2 : String) (pl1 pl2 : Player)
    (hpts : room.config.pointsPerPart = 5)
    (hq : room.queue = [p1, p2])
    (h1 : lookupA room.players p1 = some pl1)
    (h2 : lookupA room.players p2 = some pl2) :
    (actionPartCorrect room).queue = [p1, p2] ∧
    lookupA (actionPartCorrect room).players p1 =
      some { pl1 with score := pl1.score + 5 } ∧
    (actionFullCorrect room).queue = [p2] ∧
    lookupA (actionFullCorrect room).players p1 =
      some { pl1 with score := pl1.score + 10 } ∧
    ∀ r : Room, r.queue = [] → actionPartCorrect r = r ∧ actionFullCorrect r = r := by
  refine ⟨?_, ?_, ?_, ?_, ?_⟩
  · simp [actionPartCorrect, hq, h1]
  · simp [actionPartCorrect, hq, h1, hpts, lookupA_setA_self]
  · simp [actionFullCorrect, hq, h1]
  · simp [actionFullCorrect, hq, h1, hpts, lookupA_setA_self]
  · intro r hr
    exact ⟨by simp [actionPartCorrect, hr], by simp [actionFullCorrect, hr]⟩

/-- Witness for C3 at a concrete room: Alice at score 3 goes to 8 under a
partial award and to 13 under a full award, with the expected queues. -/
theorem award_spec_witness :
    exAward.config.pointsPerPart = 5 ∧
    exAward.queue = ["P1", "P2"] ∧
    (actionPartCorrect exAward).queue = ["P1", "P2"] ∧
    lookupA (actionPartCorrect exAward).players "P1" = some ⟨"Alice", 8, false, false⟩ ∧
    (actionFullCorrect exAward).queue = ["P2"] ∧
    lookupA (actionFullCorrect exAward).players "P1" = some ⟨"Alice", 13, false, false⟩ :=
  have h := award_spec exAward "P1" "P2" ⟨"Alice", 3, false, false⟩
    ⟨"Bob", 0, false, false⟩ rfl rfl rfl rfl
  ⟨rfl, rfl, h.1, h.2.1, h.2.2.1, h.2.2.2.1⟩

/-- C10: a repeated `player:joinRoom` for a connection that already has a
player entry keeps score and both DQ flags and replaces the stored name
with the sanitized requested name. -/
theorem rejoin_spec (room : Room) (pid raw : String) (p : Player)
    (h : lookupA room.players pid = some p) :
    lookupA (playerJoinRoom room pid raw).players pid =
      some { p with name := sanitizeName raw } := by
  simp [playerJoinRoom, h, lookupA_setA_self]

/-- Witness for C10 at a concrete room: rejoining with a new name keeps
score 2 and the DQ flags and swaps the name. -/
theorem rejoin_spec_witness :
    lookupA exRound.players "P1" = some ⟨"A", 2, true, true⟩ ∧
    lookupA (playerJoinRoom exRound "P1" "NewName").players "P1" =
      some ⟨sanitizeName "NewName", 2, true, true⟩ :=
  ⟨rfl, rejoin_spec exRound "P1" "NewName" ⟨"A", 2, true, true⟩ rfl⟩

/-- C2 counterexample: a member who buzzed at t = 1000 and is still in
the queue buzzes again at t = 1300, a full 300 ms later, and the buzz is
NOT accepted: it is silently ignored and the queue and `lastBuzzAt` stay
unchanged, refuting the unconditional acceptance in the claim. -/
theorem buzz_requeue_counterexample :
    exBuzzQueued.roundActive = true ∧
    lookupA exBuzzQueued.players "P1" = some ⟨"Alice", 0, false, false⟩ ∧
    lookupA exBuzzQueued.lastBuzzAt "P1" = some 1000 ∧
    (300 : Int) ≤ 1300 - 1000 ∧
    attemptBuzz exBuzzQueued "P1" 1300 = (.alreadyQueued, exBuzzQueued) :=
  ⟨rfl, rfl, rfl, by decide, rfl⟩

/-- C2 (amended): for an active-round member who is not disqualified and
has a recorded last accepted buzz, a buzz strictly within 300 ms is
rejected with a cooldown notice carrying the remaining milliseconds and
the room is unchanged; a buzz 300 ms or later is accepted, appended to
the queue tail with `lastBuzzAt` updated, provided the player is not
already in the queue. -/
theorem buzz_cooldown_spec (room : Room) (pid : String) (now last : Int) (p : Player)
    (hp : lookupA room.players pid = some p)
    (hact : room.roundActive = true)
    (hdq : p.dqThisRound = false)
    (hlast : lookupA room.lastBuzzAt pid = some last) :
    (now - last < 300 →
      attemptBuzz room pid now = (.cooldown (300 - (now - last)), room)) ∧
    (300 ≤ now - last → room.queue.contains pid = false →
      attemptBuzz room pid now =
        (.accepted,
          { room with queue := room.queue ++ [pid],
                      lastBuzzAt := setA room.lastBuzzAt pid now })) := by
  constructor
  · intro hcool
    simp [attemptBuzz, hp, hact, hdq, hlast, SERVER_COOLDOWN_MS, hcool]
  · intro hge hq
    simp at hq
    simp [attemptBuzz, hp, hact, hdq, hlast, SERVER_COOLDOWN_MS, hq, not_lt.mpr hge]

/-- Witness for C2 at a concrete room: a re-buzz 200 ms early yields a
cooldown notice of 100 ms remaining, and once out of the queue a re-buzz
at 300 ms is accepted. -/
theorem buzz_cooldown_spec_witness :
    lookupA exBuzzFresh.players "P1" = some ⟨"Alice", 0, false, false⟩ ∧
    exBuzzFresh.roundActive = true ∧
    lookupA exBuzzFresh.lastBuzzAt "P1" = some 1000 ∧
    attemptBuzz exBuzzFresh "P1" 1200 = (.cooldown 100, exBuzzFresh) ∧
    attemptBuzz exBuzzFresh "P1" 1300 =
      (.accepted,
        { exBuzzFresh with queue := ["P1"], lastBuzzAt := [("P1", 1300)] }) :=
  have h := buzz_cooldown_spec exBuzzFresh "P1" 1200 1000
    ⟨"Alice", 0, false, false⟩ rfl rfl rfl rfl
  have h2 := buzz_cooldown_spec exBuzzFresh "P1" 1300 1000
    ⟨"Alice", 0, false, false⟩ rfl rfl rfl rfl
  ⟨rfl, rfl, rfl, h.1 (by decide), h2.2 (by decide) rfl⟩

/-- C4 counterexample: in a fresh room the round is inactive AND the
buzzer is not a member; the handler takes the unknown-player exit, not
the round-inactive exit, so membership is checked before round
activity, refuting the claimed check order. -/
theorem buzz_order_counterexample :
    (initRoom "R").roundActive = false ∧
    (attemptBuzz (initRoom "R") "P" 0).1 = .unknownPlayer ∧
    (attemptBuzz (initRoom "R") "P" 0).1 ≠ .roundInactive :=
  ⟨rfl, rfl, by decide⟩

/-- C4 (amended): buzz rejections are checked in this order: first an
unknown player, second an inactive round, third `dqThisRound`, fourth
the 300 ms cooldown with the remaining milliseconds, and fifth a player
already in the queue is silently ignored with no state change. -/
theorem buzz_checks_spec (room : Room) (pid : String) (now : Int) :
    (lookupA room.players pid = none →
      attemptBuzz room pid now = (.unknownPlayer, room)) ∧
    (∀ p, lookupA room.players pid = some p → room.roundActive = false →
      attemptBuzz room pid now = (.roundInactive, room)) ∧
    (∀ p, lookupA room.players pid = some p → room.roundActive = true →
      p.dqThisRound = true →
      attemptBuzz room pid now = (.disqualified, room)) ∧
    (∀ p, lookupA room.players pid = some p → room.roundActive = true →
      p.dqThisRound = false →
      now - (lookupA room.lastBuzzAt pid).getD 0 < 300 →
      attemptBuzz room pid now =
        (.cooldown (300 - (now - (lookupA room.lastBuzzAt pid).getD 0)), room)) ∧
    (∀ p, lookupA room.players pid = some p → room.roundActive = true →
      p.dqThisRound = false →
      300 ≤ now - (lookupA room.lastBuzzAt pid).getD 0 →
      room.queue.contains pid = true →
      attemptBuzz room pid now = (.alreadyQueued, room)) := by
  refine ⟨?_, ?_, ?_, ?_, ?_⟩
  · intro h
    simp [attemptBuzz, h]
  · intro p hp hact
    simp [attemptBuzz, hp, hact]
  · intro p hp hact hdq
    simp [attemptBuzz, hp, hact, hdq]
  · intro p hp hact hdq hcool
    simp [attemptBuzz, hp, hact, hdq, SERVER_COOLDOWN_MS, hcool]
  · intro p hp hact hdq hge hq
    simp at hq
    simp [attemptBuzz, hp, hact, hdq, SERVER_COOLDOWN_MS, hq, not_lt.mpr hge]

/-- Witness for C4 applying the unknown-player case at a fresh room. -/
theorem buzz_checks_spec_witness :
    lookupA (initRoom "R").players "P" = none ∧
    attemptBuzz (initRoom "R") "P" 0 = (.unknownPlayer, initRoom "R") :=
  ⟨rfl, (buzz_checks_spec (initRoom "R") "P" 0).1 rfl⟩

/-- C6 counterexample: the non-integer finite value 5/2 = 2.5 lies in
[0, 100], so `config:update` ACCEPTS it, stores `Math.round(2.5) = 3`
and emits the success messages instead of rejecting it, refuting the
claimed integrality requirement. -/
theorem config_non_integer_counterexample :
    configOK (JSNum.num (5 / 2)) = true ∧
    (configUpdate (initRoom "R") (JSNum.num (5 / 2))).1.config.pointsPerPart = 3 ∧
    (configUpdate (initRoom "R") (JSNum.num (5 / 2))).2 =
      [.configSync 3, .toastInfo, .stateSync] := by
  have hok : configOK (JSNum.num (5 / 2)) = true := by
    simp [configOK, MAX_POINTS]
    norm_num
  have hrnd : jsRound ((5 : ℚ) / 2) = 3 := by
    unfold jsRound
    rw [show (5 : ℚ) / 2 + 1 / 2 = ((3 : Int) : ℚ) by norm_num]
    exact Int.floor_intCast 3
  refine ⟨hok, ?_, ?_⟩ <;> simp [configUpdate, hok, jsVal, hrnd]

/-- C6 (amended): a configuration update is accepted exactly when the
submitted value is finite and lies in [0, 100]; an accepted value is
stored rounded to the nearest integer (so the stored value is an integer
in [0, 100]) and the success messages are emitted; a non-finite or
out-of-range value is rejected with a warning to the caller and leaves
the configuration unchanged. -/
theorem configUpdate_spec (room : Room) (v : JSNum) :
    (configOK v = true →
      (configUpdate room v).1 =
        { room with config := { pointsPerPart := jsRound (jsVal v) } } ∧
      (configUpdate room v).2 =
        [.configSync (jsRound (jsVal v)), .toastInfo, .stateSync] ∧
      0 ≤ jsRound (jsVal v) ∧ jsRound (jsVal v) ≤ 100) ∧
    (configOK v = false →
      (configUpdate room v).1 = room ∧ (configUpdate room v).2 = [.toastWarning]) ∧
    (v.isFinite = false → configOK v = false) ∧
    (∀ q : ℚ, v = .num q → (q < 0 ∨ MAX_POINTS < q) → configOK v = false) := by
  refine ⟨?_, ?_, ?_, ?_⟩
  · intro hok
    refine ⟨by simp [configUpdate, hok], by simp [configUpdate, hok], ?_, ?_⟩
    · rcases v with _ | _ | _ | q <;> simp [configOK] at hok
      have h0 : (0 : ℚ) ≤ q := hok.1
      unfold jsRound jsVal
      have : ((0 : Int) : ℚ) ≤ q + 1 / 2 := by
        push_cast
        linarith
      exact Int.le_floor.mpr this
    · rcases v with _ | _ | _ | q <;> simp [configOK, MAX_POINTS] at hok
      have h100 : q ≤ 100 := hok.2
      show jsRound q ≤ 100
      unfold jsRound
      have hlt : ⌊q + (1 : ℚ) / 2⌋ < 101 := by
        apply Int.floor_lt.mpr
        push_cast
        linarith
      omega
  · intro hbad
    exact ⟨by simp [configUpdate, hbad], by simp [configUpdate, hbad]⟩
  · intro hfin
    rcases v with _ | _ | _ | q <;> simp [configOK]
    simp [JSNum.isFinite] at hfin
  · intro q hv hout
    subst hv
    simp only [configOK, Bool.and_eq_false_iff]
    rcases hout with hout | hout
    · left
      simpa using not_le.mpr hout
    · right
      simpa using not_le.mpr hout

/-- Witness for C6: the integer 7 is accepted and stored, and the
infinite value is rejected leaving the default configuration intact. -/
theorem configUpdate_spec_witness :
    configOK (JSNum.num 7) = true ∧
    (configUpdate (initRoom "R") (JSNum.num 7)).1 =
      { initRoom "R" with config := { pointsPerPart := jsRound (jsVal (JSNum.num 7)) } } ∧
    configOK JSNum.posInf = false ∧
    (configUpdate (initRoom "R") JSNum.posInf).1 = initRoom "R" :=
  have h7 := (configUpdate_spec (initRoom "R") (JSNum.num 7)).1 rfl
  have hinf := ((configUpdate_spec (initRoom "R") JSNum.posInf).2.1) rfl
  ⟨rfl, h7.1, rfl, hinf.1⟩

/-- C7 counterexample: every host action invoked on an unknown room code
returns with no state change and NO emission at all, so no error reaches
the caller, refuting the claimed error report. -/
theorem unknown_room_counterexample :
    lookupA ([] : Rooms) (normCode "NOPE") = none ∧
    hostStartRound [] "NOPE" = ([], []) ∧
    hostEndRound [] "NOPE" = ([], []) ∧
    hostActionPartCorrect [] "NOPE" = ([], []) ∧
    hostActionFullCorrect [] "NOPE" = ([], []) ∧
    hostActionNext [] "NOPE" = ([], []) ∧
    hostActionDQNextRound [] "NOPE" = ([], []) ∧
    hostConfigUpdate [] "NOPE" (JSNum.num 7) = ([], []) :=
  ⟨rfl, rfl, rfl, rfl, rfl, rfl, rfl, rfl⟩

/-- C7 (amended): every host action invoked with a room code for which no
room exists is silently ignored: the registry is unchanged and nothing is
emitted to the caller. -/
theorem unknown_room_spec (rs : Rooms) (code : String) (v : JSNum)
    (h : lookupA rs (normCode code) = none) :
    hostStartRound rs code = (rs, []) ∧
    hostEndRound rs code = (rs, []) ∧
    hostActionPartCorrect rs code = (rs, []) ∧
    hostActionFullCorrect rs code = (rs, []) ∧
    hostActionNext rs code = (rs, []) ∧
    hostActionDQNextRound rs code = (rs, []) ∧
    hostConfigUpdate rs code v = (rs, []) := by
  refine ⟨?_, ?_, ?_, ?_, ?_, ?_, ?_⟩ <;>
    simp [hostStartRound, hostEndRound, hostActionPartCorrect,
      hostActionFullCorrect, hostActionNext, hostActionDQNextRound,
      hostConfigUpdate, h]

/-- Witness for C7 on the empty registry. -/
theorem unknown_room_spec_witness :
    lookupA ([] : Rooms) (normCode "ZZZZZZ") = none ∧
    hostStartRound [] "ZZZZZZ" = ([], []) ∧
    hostConfigUpdate [] "ZZZZZZ" (JSNum.num 0) = ([], []) :=
  have h := unknown_room_spec [] "ZZZZZZ" (JSNum.num 0) rfl
  ⟨rfl, h.1, h.2.2.2.2.2.2⟩

/-- C8: the broadcast leaderboard is a permutation of the room's player
entries sorted by score descending with ties broken by name ascending,
and on the example scores B:5, A:5, C:10 it yields C, A, B. -/
theorem leaderboard_spec :
    (∀ room : Room,
      (toLeaderboard room).Perm
        (room.players.map (fun e => LBEntry.mk e.1 e.2.name e.2.score)) ∧
      List.Sorted lbRel (toLeaderboard room)) ∧
    toLeaderboard exLeaderboard =
      [LBEntry.mk "s3" "C" 10, LBEntry.mk "s2" "A" 5, LBEntry.mk "s1" "B" 5] := by
  constructor
  · intro room
    refine ⟨List.perm_insertionSort lbRel _, ?_⟩
    exact @List.sorted_insertionSort LBEntry lbRel _ ⟨lbRel_total⟩ ⟨lbRel_trans⟩ _
  · decide

/-- C9: in every reachable room state, an inactive round means an empty
queue. -/
theorem idle_queue_empty (r : Room) (h : Reachable r) :
    r.roundActive = false → r.queue = [] := by
  induction h with
  | init code =>
    intro _
    rfl
  | step _ hs ih => exact roomStep_preserves_idle _ _ hs ih

/-- Witness for C9 on the reachable state obtained by starting and then
ending a round in a fresh room. -/
theorem idle_queue_empty_witness :
    (endRound (startRound (initRoom "R"))).roundActive = false ∧
    (endRound (startRound (initRoom "R"))).queue = [] :=
  have h1 : Reachable (startRound (initRoom "R")) :=
    Reachable.step (Reachable.init "R") (RoomStep.stepStart (initRoom "R"))
  have h2 : Reachable (endRound (startRound (initRoom "R"))) :=
    Reachable.step h1 (RoomStep.stepEnd (startRound (initRoom "R")))
  ⟨rfl, idle_queue_empty (endRound (startRound (initRoom "R"))) h2 rfl⟩

end Buzzer
